import Mathlib

/-!
Shallow embedding of the VeriFS2 directory component
(`src/directory.cpp`, `src/directory.hpp`, `src/util.hpp`) together with
the registry interface it consumes (`FuseRamFs`), whose implementation is
not among the sources at hand and is therefore modelled from the spec.

Machine integers: `off_t`/`size_t` sizes are modelled as `Nat` (the code
asserts against negative sizes); the signed delta of `UpdateSize` and the
used-block counter are `Int`. The C++ `int`-returning operations are
modelled as the returned error code paired with the post-state; the
`assert(0)` abort inside `UpdateSize` is modelled as `Option.none`.
Wall-clock reads (`clock_gettime`) are modelled by passing the current
time `now` as an argument.
-/

namespace VeriFS

abbrev Name := String

/-- `fuse_ino_t`, an unsigned integer inode number. -/
abbrev Ino := Nat

/-- Linux errno 2, `ENOENT`. -/
def ENOENT : Int := 2

/-- Linux errno 17, `EEXIST`. -/
def EEXIST : Int := 17

/-- Linux errno 28, `ENOSPC`. -/
def ENOSPC : Int := 28

/-- `sizeof(_Rb_tree_node_base)` on x86-64 Linux. -/
def sizeofRbNodeBase : Nat := 32

/-- `sizeof(fuse_ino_t)` (an `unsigned long`) on x86-64 Linux. -/
def sizeofFuseIno : Nat := 8

/-- `sizeof(std::string)` with libstdc++ on x86-64 Linux. -/
def sizeofStdString : Nat := 32

/-- Per-entry overhead computed identically in `Directory::_AddChild` and
`Directory::_RemoveChild`:
`sizeof(_Rb_tree_node_base) + sizeof(fuse_ino_t) + sizeof(std::string) + name.size()`. -/
def elem_size (name : Name) : Nat :=
  sizeofRbNodeBase + sizeofFuseIno + sizeofStdString + name.length

/-- Modelled from the spec: `Inode::BufBlockSize`, the fixed block
accounting unit ("Block: fixed-size accounting unit"); its definition
(`inode.hpp`) is not among the sources, so we fix the conventional 512. -/
def BufBlockSize : Nat := 512

/-- `get_nblocks` from `util.hpp`: `(size + blocksize - 1) / blocksize`,
the size rounded up to whole blocks. -/
def get_nblocks (size blocksize : Nat) : Nat :=
  (size + blocksize - 1) / blocksize

/-- The directory state visible to `directory.cpp`: the `m_children`
sequence (kept in `push_back` order and searched linearly by
`Directory::find`), the directory's own `st_size`/`st_blocks`/timestamp
attributes, and the registry's global used-block counter and quota that
`FuseRamFs::CheckHasSpaceFor` / `FuseRamFs::UpdateUsedBlocks` act on. -/
structure DirState where
  children   : List (Name × Ino)
  st_size    : Nat
  st_blocks  : Nat
  st_mtim    : Nat
  st_ctim    : Nat
  usedBlocks : Int
  quota      : Nat
deriving Repr, DecidableEq

/-- `Directory::find`: `std::find_if` over `m_children` comparing names;
the first entry carrying `name`, if any. -/
def findChild (children : List (Name × Ino)) (name : Name) :
    Option (Name × Ino) :=
  children.find? (fun c => c.1 = name)

/-- `find(name) != m_children.end()`. -/
def containsName (children : List (Name × Ino)) (name : Name) : Bool :=
  children.any (fun c => c.1 = name)

/-- Replace the mapped inode number of the first entry named `name`
(`child->second = ino` at the iterator returned by `find`). -/
def updateFirst : List (Name × Ino) → Name → Ino → List (Name × Ino)
  | [], _, _ => []
  | c :: rest, n, i =>
    if c.1 = n then (c.1, i) :: rest else c :: updateFirst rest n i

/-- Erase the first entry named `name`
(`m_children.erase(child)` at the iterator returned by `find`). -/
def eraseFirst : List (Name × Ino) → Name → List (Name × Ino)
  | [], _ => []
  | c :: rest, n => if c.1 = n then rest else c :: eraseFirst rest n

/-- Modelled from the spec: `FuseRamFs::CheckHasSpaceFor(node, bytes)`
(`fuse_cpp_ramfs.cpp` is not among the sources): "read-only; reports
whether `usedBlocks + blocksFor(requestedBytes) <= quota`". -/
def CheckHasSpaceFor (used : Int) (quota : Nat) (bytes : Nat) : Bool :=
  used + (get_nblocks bytes BufBlockSize : Int) ≤ (quota : Int)

/-- `Directory::UpdateSize(delta)`. Aborts (`assert(0)`, modelled `none`)
when a negative delta exceeds the current size; otherwise sets
`st_size += delta`, recomputes `get_nblocks` and, only when the block
count changed, stores it and forwards the difference to
`FuseRamFs::UpdateUsedBlocks` (modelled from the spec: "atomically
adjusts the global used-block counter (signed delta)"). -/
def UpdateSize (s : DirState) (delta : Int) : Option DirState :=
  if delta < 0 ∧ (s.st_size : Int) < -delta then
    none
  else
    let oldBlocks := s.st_blocks
    let newSize := ((s.st_size : Int) + delta).toNat
    let newBlocks := get_nblocks newSize BufBlockSize
    if newBlocks ≠ oldBlocks then
      some { s with st_size := newSize, st_blocks := newBlocks,
                    usedBlocks :=
                      s.usedBlocks + ((newBlocks : Int) - (oldBlocks : Int)) }
    else
      some { s with st_size := newSize }

/-- `Directory::_AddChild(name, ino)`: `-EEXIST` when the name is present,
`-ENOSPC` when the registry refuses the entry's overhead, otherwise
`push_back (name, ino)` and `UpdateSize (+elem_size)`. The result pairs
the returned `int` with the post-state. `Directory::AddChild` only wraps
this in the children lock. -/
def AddChild (s : DirState) (name : Name) (ino : Ino) :
    Option (Int × DirState) :=
  if containsName s.children name then
    some (-EEXIST, s)
  else if ¬ CheckHasSpaceFor s.usedBlocks s.quota (elem_size name) then
    some (-ENOSPC, s)
  else
    (UpdateSize { s with children := s.children ++ [(name, ino)] }
        ((elem_size name : Nat) : Int)).map (fun s1 => (0, s1))

/-- `Directory::_UpdateChild(name, ino)`: `-ENOENT` when absent, else
replace the mapped inode and refresh `st_ctim`/`st_mtim` to `now`
(`clock_gettime(CLOCK_REALTIME, ...)`). -/
def UpdateChild (now : Nat) (s : DirState) (name : Name) (ino : Ino) :
    Int × DirState :=
  if ¬ containsName s.children name then
    (-ENOENT, s)
  else
    (0, { s with children := updateFirst s.children name ino,
                 st_ctim := now, st_mtim := now })

/-- `Directory::_RemoveChild(name)`: `-ENOENT` when absent, else erase the
entry, `UpdateSize (-elem_size)` and refresh `st_ctim`/`st_mtim`. -/
def RemoveChild (now : Nat) (s : DirState) (name : Name) :
    Option (Int × DirState) :=
  if ¬ containsName s.children name then
    some (-ENOENT, s)
  else
    (UpdateSize { s with children := eraseFirst s.children name }
        (-((elem_size name : Nat) : Int))).map
      (fun s1 => (0, { s1 with st_ctim := now, st_mtim := now }))

/-- A registry inode as far as `Directory::IsEmpty` consults it: only
`NumLinks()` matters. -/
structure InodeMeta where
  nlink : Nat
deriving Repr, DecidableEq

/-- Modelled from the spec: `FuseRamFs::GetInode(ino)` ("returns the inode
if present, or absent"); the registry's inode table as a finite
association list from inode number to inode. -/
def GetInode (table : List (Ino × InodeMeta)) (i : Ino) : Option InodeMeta :=
  (table.find? (fun e => e.1 = i)).map (fun e => e.2)

/-- `Directory::IsEmpty()`: scan `m_children`, skip `"."` and `".."`, and
report non-empty on the first entry whose inode resolves in the registry
with a positive link count. -/
def IsEmpty (table : List (Ino × InodeMeta))
    (children : List (Name × Ino)) : Bool :=
  children.all (fun c =>
    if c.1 = "." ∨ c.1 = ".." then
      true
    else
      match GetInode table c.2 with
      | none => true
      | some e => decide (e.nlink = 0))

/-- `Directory::ReadDirCtx`: cookie, snapshot copy of the children, and
the cursor `it` as an index into that snapshot. -/
structure ReadDirCtx where
  cookie   : Nat
  children : List (Name × Ino)
  itPos    : Nat
deriving Repr, DecidableEq

/-- `Directory::readdirStates`, the process-wide
`std::unordered_map<off_t, ReadDirCtx*>` keyed by cookie. -/
abbrev SessionTable := List (Nat × ReadDirCtx)

/-- Lookup in the session table (`readdirStates.find` / `.at`). -/
def tableFind (tbl : SessionTable) (cookie : Nat) : Option ReadDirCtx :=
  (tbl.find? (fun e => e.1 = cookie)).map (fun e => e.2)

/-- `readdirStates.erase(cookie)`. -/
def tableErase (tbl : SessionTable) (cookie : Nat) : SessionTable :=
  tbl.filter (fun e => ¬ e.1 = cookie)

/-- The retry loop `cookie = rand(); while (readdirStates.find(cookie) !=
readdirStates.end()) cookie = rand();`, the successive `rand()` draws
supplied as a list: the first draw not colliding with a live cookie is
chosen; `none` models exhausting the supplied draws (the C++ loop would
keep drawing). -/
def pickCookie : List Nat → SessionTable → Option Nat
  | [], _ => none
  | c :: rest, tbl =>
    if (tableFind tbl c).isSome then pickCookie rest tbl else some c

/-- Outcome of `Directory::PrepareReaddir`: a session, or the
`std::out_of_range` escape (`NotFound`). -/
inductive ReaddirResult where
  | session (ctx : ReadDirCtx)
  | notFound
deriving Repr, DecidableEq

/-- `Directory::PrepareReaddir(cookie)` acting on the session table.
With `cookie ≠ 0`: look the session up (`.at` throws `NotFound` when
absent); an exhausted session (`it == children.end()`) is erased and
`NotFound` thrown. With `cookie == 0`: copy `m_children`, draw a cookie
with the rand-retry loop, register the new session. `none` models
exhausting the supplied `rand()` draws. -/
def PrepareReaddir (rands : List Nat) (children : List (Name × Ino))
    (tbl : SessionTable) (cookie : Nat) :
    Option (ReaddirResult × SessionTable) :=
  if cookie ≠ 0 then
    match tableFind tbl cookie with
    | none => some (.notFound, tbl)
    | some ctx =>
      if ctx.children.length ≤ ctx.itPos then
        some (.notFound, tableErase tbl cookie)
      else
        some (.session ctx, tbl)
  else
    match pickCookie rands tbl with
    | none => none
    | some c =>
      let ctx : ReadDirCtx := ⟨c, children, 0⟩
      some (.session ctx, (c, ctx) :: tbl)

/-- The directory-mutation calls the request layer can issue between two
readdir calls (`Directory::AddChild` / `UpdateChild` / `RemoveChild`). -/
inductive MutOp where
  | add (name : Name) (ino : Ino)
  | update (now : Nat) (name : Name) (ino : Ino)
  | remove (now : Nat) (name : Name)
deriving Repr, DecidableEq

/-- Apply a mutation to the directory state; the error paths leave the
state as the operations return it, and `UpdateSize`'s abort (modelled
`none`) keeps the pre-state, as the process would have died there. -/
def applyMut (d : DirState) : MutOp → DirState
  | .add n i =>
    match AddChild d n i with
    | some (_, d1) => d1
    | none => d
  | .update now n i => (UpdateChild now d n i).2
  | .remove now n =>
    match RemoveChild now d n with
    | some (_, d1) => d1
    | none => d

/-- A directory together with the process-wide readdir session table:
none of the mutation paths in `directory.cpp` reads or writes
`readdirStates`, so applying one touches only the directory. -/
structure World where
  dir : DirState
  sessions : SessionTable
deriving Repr, DecidableEq

/-- One mutation call on the world: `_AddChild`, `_UpdateChild` and
`_RemoveChild` operate on `m_children` and the attributes only. -/
def applyMutW (w : World) (op : MutOp) : World :=
  { w with dir := applyMut w.dir op }

/-- Strict sortedness of the children sequence by name key (lexicographic
on the characters), the iteration order the spec's collaborator contract
promises for the ordered child mapping. -/
def sortedByName : List (Name × Ino) → Bool
  | [] => true
  | [_] => true
  | a :: b :: rest => (decide (a.1.data < b.1.data)) && sortedByName (b :: rest)

/-- A 441-character name whose entry overhead (72 + 441 = 513 bytes) costs
two 512-byte blocks, reproducing the spec's quota scenario. -/
def longName : Name := String.mk (List.replicate 441 'x')

/-- Directory with 999 of 1000 quota blocks used, the spec's quota
scenario. -/
def dirNearQuota : DirState := ⟨[], 0, 0, 0, 0, 999, 1000⟩

/-- Directory holding one entry, used to witness the add/remove
round-trip. -/
def dirRoundtrip : DirState := ⟨[("x", 7)], 100, 1, 5, 6, 1, 1000⟩

/-- Directory with children a, b, c, the spec's snapshot-isolation
scenario. -/
def dirSnapshot : DirState :=
  ⟨[("a", 1), ("b", 2), ("c", 3)], 219, 1, 0, 0, 1, 1000⟩

/-- A session table holding one exhausted session (cursor at the end of
its one-entry snapshot). -/
def exhaustedTbl : SessionTable := [(7, ⟨7, [("a", 1)], 1⟩)]

/-- Directory holding one entry named a. -/
def dirOneChild : DirState := ⟨[("a", 1)], 73, 1, 0, 0, 1, 1000⟩

/-- `dirOneChild` after appending an entry named b. -/
def dirTwoChildren : DirState :=
  ⟨[("a", 1), ("b", 1)], 146, 1, 0, 0, 1, 1000⟩

lemma updateSize_add (s : DirState) (e : Nat) :
    UpdateSize s (e : Int) =
      some { s with st_size := s.st_size + e,
                    st_blocks := get_nblocks (s.st_size + e) BufBlockSize,
                    usedBlocks := s.usedBlocks +
                      ((get_nblocks (s.st_size + e) BufBlockSize : Int) -
                        (s.st_blocks : Int)) } := by
  have h0 : ¬((e : Int) < 0 ∧ (s.st_size : Int) < -(e : Int)) := by omega
  have hsize : ((s.st_size : Int) + (e : Int)).toNat = s.st_size + e := by omega
  unfold UpdateSize
  rw [if_neg h0]
  simp only [hsize]
  split
  · rfl
  · next h =>
    rw [not_ne_iff] at h
    rw [h]
    simp

lemma updateSize_sub (s : DirState) (e : Nat) (he : e ≤ s.st_size) :
    UpdateSize s (-(e : Int)) =
      some { s with st_size := s.st_size - e,
                    st_blocks := get_nblocks (s.st_size - e) BufBlockSize,
                    usedBlocks := s.usedBlocks +
                      ((get_nblocks (s.st_size - e) BufBlockSize : Int) -
                        (s.st_blocks : Int)) } := by
  have h0 : ¬(-(e : Int) < 0 ∧ (s.st_size : Int) < -(-(e : Int))) := by omega
  have hsize : ((s.st_size : Int) + -(e : Int)).toNat = s.st_size - e := by omega
  unfold UpdateSize
  rw [if_neg h0]
  simp only [hsize]
  split
  · rfl
  · next h =>
    rw [not_ne_iff] at h
    rw [h]
    simp

lemma containsName_append_self (l : List (Name × Ino)) (n : Name) (i : Ino) :
    containsName (l ++ [(n, i)]) n = true := by
  simp [containsName]

lemma eraseFirst_append (l : List (Name × Ino)) (n : Name) (i : Ino)
    (h : containsName l n = false) :
    eraseFirst (l ++ [(n, i)]) n = l := by
  induction l with
  | nil => simp [eraseFirst]
  | cons c rest ih =>
    simp only [containsName, List.any_cons, Bool.or_eq_false_iff] at h
    simp only [List.cons_append, eraseFirst]
    rw [if_neg (by simpa using h.1)]
    exact congrArg (fun l => c :: l) (ih (by simpa [containsName] using h.2))

lemma updateFirst_map_fst (l : List (Name × Ino)) (n : Name) (i : Ino) :
    (updateFirst l n i).map Prod.fst = l.map Prod.fst := by
  induction l with
  | nil => rfl
  | cons c rest ih =>
    unfold updateFirst
    split
    · simp
    · simpa using ih

lemma findChild_updateFirst (l : List (Name × Ino)) (n : Name) (i : Ino)
    (h : containsName l n = true) :
    findChild (updateFirst l n i) n = some (n, i) := by
  induction l with
  | nil => simp [containsName] at h
  | cons c rest ih =>
    unfold updateFirst
    split
    · next hc =>
      simp [findChild, List.find?_cons, hc]
    · next hc =>
      have h' : containsName rest n = true := by
        simp only [containsName, List.any_cons, Bool.or_eq_true] at h
        rcases h with h | h
        · exact absurd (by simpa using h) hc
        · simpa [containsName] using h
      simpa [findChild, List.find?_cons, hc] using ih h'

lemma sessions_foldl (ops : List MutOp) (w : World) :
    (ops.foldl applyMutW w).sessions = w.sessions := by
  induction ops generalizing w with
  | nil => rfl
  | cons op rest ih => rw [List.foldl_cons, ih]; rfl

lemma tableFind_erase (tbl : SessionTable) (cookie : Nat) :
    tableFind (tableErase tbl cookie) cookie = none := by
  induction tbl with
  | nil => rfl
  | cons e rest ih =>
    unfold tableErase at ih ⊢
    rw [List.filter_cons]
    by_cases he : e.1 = cookie
    · rw [if_neg (by simp [he])]
      exact ih
    · rw [if_pos (by simp [he])]
      simp [tableFind, List.find?_cons, he]

/-- C2: `AddChild(name, ino)` fails with `-EEXIST` when `name` is already
present; otherwise, when the registry reports the entry's overhead
(`elem_size name`, a fixed cost plus the name length) does not fit the
block quota, it fails with `-ENOSPC`; otherwise it succeeds, appends
`(name, ino)` to the children, grows `st_size` by exactly that overhead
and leaves `st_blocks` equal to the new size rounded up to whole
blocks. -/
theorem addChild_spec (s : DirState) (name : Name) (ino : Ino) :
    (containsName s.children name = true →
      AddChild s name ino = some (-EEXIST, s)) ∧
    (containsName s.children name = false →
      CheckHasSpaceFor s.usedBlocks s.quota (elem_size name) = false →
      AddChild s name ino = some (-ENOSPC, s)) ∧
    (containsName s.children name = false →
      CheckHasSpaceFor s.usedBlocks s.quota (elem_size name) = true →
      ∃ s1, AddChild s name ino = some (0, s1) ∧
        s1.children = s.children ++ [(name, ino)] ∧
        s1.st_size = s.st_size + elem_size name ∧
        s1.st_blocks = get_nblocks s1.st_size BufBlockSize) := by
  refine ⟨fun h1 => ?_, fun h1 h2 => ?_, fun h1 h2 => ?_⟩
  · unfold AddChild
    rw [if_pos h1]
  · unfold AddChild
    rw [if_neg (by simp [h1]), if_pos (by simp [h2])]
  · unfold AddChild
    rw [if_neg (by simp [h1]), if_neg (by simp [h2])]
    rw [updateSize_add]
    exact ⟨_, rfl, rfl, rfl, rfl⟩

/-- C3: an `AddChild` refused for lack of quota returns `-ENOSPC` and
leaves the global used-block counter, the children, `st_size` and
`st_blocks` all unchanged. -/
theorem addChild_nospace_frame (s : DirState) (name : Name) (ino : Ino)
    (h1 : containsName s.children name = false)
    (h2 : CheckHasSpaceFor s.usedBlocks s.quota (elem_size name) = false)
    (r : Int) (s1 : DirState)
    (h : AddChild s name ino = some (r, s1)) :
    r = -ENOSPC ∧ s1.usedBlocks = s.usedBlocks ∧ s1.children = s.children ∧
      s1.st_size = s.st_size ∧ s1.st_blocks = s.st_blocks := by
  unfold AddChild at h
  rw [if_neg (by simp [h1]), if_pos (by simp [h2])] at h
  obtain ⟨hr, hs⟩ := Prod.mk.injEq .. ▸ (Option.some.injEq .. ▸ h)
  subst hs
  exact ⟨hr.symm ▸ rfl, rfl, rfl, rfl, rfl⟩

set_option maxRecDepth 8192 in
/-- Witness for C3, at the spec's quota scenario: 999 of 1000 blocks used
and an entry costing two blocks. -/
theorem addChild_nospace_frame_witness :
    (-ENOSPC : Int) = -ENOSPC ∧
      dirNearQuota.usedBlocks = dirNearQuota.usedBlocks ∧
      dirNearQuota.children = dirNearQuota.children ∧
      dirNearQuota.st_size = dirNearQuota.st_size ∧
      dirNearQuota.st_blocks = dirNearQuota.st_blocks :=
  addChild_nospace_frame dirNearQuota longName 4 (by decide) (by decide)
    (-ENOSPC) dirNearQuota (by decide)

/-- C6: adding a fresh name and then removing it restores `st_size` and
`st_blocks` exactly, for every directory satisfying the data-model
invariant `st_blocks = get_nblocks st_size BufBlockSize`. -/
theorem addChild_removeChild_roundtrip (s : DirState) (n : Name) (i : Ino)
    (now : Nat)
    (hn : containsName s.children n = false)
    (hinv : s.st_blocks = get_nblocks s.st_size BufBlockSize)
    (s1 : DirState) (hadd : AddChild s n i = some (0, s1)) :
    ∃ s2, RemoveChild now s1 n = some (0, s2) ∧
      s2.st_size = s.st_size ∧ s2.st_blocks = s.st_blocks := by
  unfold AddChild at hadd
  rw [if_neg (by simp [hn])] at hadd
  by_cases hsp : CheckHasSpaceFor s.usedBlocks s.quota (elem_size n) = true
  · rw [if_neg (by simp [hsp])] at hadd
    rw [updateSize_add] at hadd
    simp only [Option.map_some', Option.some.injEq, Prod.mk.injEq,
      true_and] at hadd
    subst hadd
    unfold RemoveChild
    rw [if_neg (by simp [containsName_append_self])]
    have herase :
        eraseFirst (s.children ++ [(n, i)]) n = s.children :=
      eraseFirst_append s.children n i hn
    simp only [herase]
    rw [updateSize_sub _ (elem_size n) (by simp)]
    refine ⟨_, rfl, by simp, ?_⟩
    simp [hinv]
  · rw [if_pos (by simpa using hsp)] at hadd
    simp only [Option.some.injEq, Prod.mk.injEq] at hadd
    exact absurd hadd.1.symm (by decide)

/-- Witness for C6: add then remove an entry named a in a one-entry
directory of size 100. -/
theorem addChild_removeChild_roundtrip_witness :
    ∃ s2, RemoveChild 42 ⟨[("x", 7), ("a", 9)], 173, 1, 5, 6, 1, 1000⟩ "a" =
        some (0, s2) ∧
      s2.st_size = dirRoundtrip.st_size ∧
      s2.st_blocks = dirRoundtrip.st_blocks :=
  addChild_removeChild_roundtrip dirRoundtrip "a" 9 42 (by decide) (by decide)
    ⟨[("x", 7), ("a", 9)], 173, 1, 5, 6, 1, 1000⟩ (by decide)

/-- C9: `UpdateChild(name, ino)` fails with `-ENOENT` and changes nothing
when no child is named `name`; otherwise it succeeds, maps `name` to
`ino`, and leaves the list of child names, `st_size` and `st_blocks`
unchanged. -/
theorem updateChild_spec (now : Nat) (s : DirState) (name : Name) (ino : Ino) :
    (containsName s.children name = false →
      UpdateChild now s name ino = (-ENOENT, s)) ∧
    (containsName s.children name = true →
      (UpdateChild now s name ino).1 = 0 ∧
      findChild (UpdateChild now s name ino).2.children name =
        some (name, ino) ∧
      (UpdateChild now s name ino).2.children.map Prod.fst =
        s.children.map Prod.fst ∧
      (UpdateChild now s name ino).2.st_size = s.st_size ∧
      (UpdateChild now s name ino).2.st_blocks = s.st_blocks) := by
  constructor
  · intro h1
    unfold UpdateChild
    rw [if_pos (by simp [h1])]
  · intro h1
    unfold UpdateChild
    rw [if_neg (by simp [h1])]
    exact ⟨rfl, findChild_updateFirst _ _ _ h1,
      updateFirst_map_fst _ _ _, rfl, rfl⟩

/-- C7: `IsEmpty()` is true exactly when every child other than `"."` and
`".."` either does not resolve in the registry or resolves to an inode
with link count zero. -/
theorem isEmpty_iff (table : List (Ino × InodeMeta))
    (children : List (Name × Ino)) :
    IsEmpty table children = true ↔
      ∀ c ∈ children, c.1 ≠ "." → c.1 ≠ ".." →
        GetInode table c.2 = none ∨
          ∃ m, GetInode table c.2 = some m ∧ m.nlink = 0 := by
  unfold IsEmpty
  rw [List.all_eq_true]
  constructor
  · intro h c hc hdot hdotdot
    have := h c hc
    rw [if_neg (by tauto)] at this
    cases hg : GetInode table c.2 with
    | none => exact Or.inl rfl
    | some m =>
      rw [hg] at this
      exact Or.inr ⟨m, rfl, by simpa using this⟩
  · intro h c hc
    by_cases hd : c.1 = "." ∨ c.1 = ".."
    · rw [if_pos hd]
    · rw [if_neg hd]
      push_neg at hd
      rcases h c hc hd.1 hd.2 with hg | ⟨m, hg, hm⟩
      · rw [hg]
      · rw [hg]
        simpa using hm

/-- C1: a readdir session created by `PrepareReaddir 0` snapshots the
children as of session start with the cursor at the beginning, and any
later sequence of `AddChild`/`UpdateChild`/`RemoveChild` calls leaves the
registered session, hence its snapshot contents and their order, exactly
as created. -/
theorem readdir_snapshot_isolation (rands : List Nat) (w : World)
    (ctx : ReadDirCtx) (tbl1 : SessionTable)
    (h : PrepareReaddir rands w.dir.children w.sessions 0 =
      some (.session ctx, tbl1))
    (ops : List MutOp) :
    ctx.children = w.dir.children ∧ ctx.itPos = 0 ∧
      tableFind (ops.foldl applyMutW { w with sessions := tbl1 }).sessions
        ctx.cookie = some ctx := by
  unfold PrepareReaddir at h
  rw [if_neg (by simp)] at h
  cases hp : pickCookie rands w.sessions with
  | none => rw [hp] at h; exact absurd h (by simp)
  | some c =>
    rw [hp] at h
    simp only [Option.some.injEq, Prod.mk.injEq,
      ReaddirResult.session.injEq] at h
    obtain ⟨hctx, htbl⟩ := h
    subst hctx
    subst htbl
    refine ⟨rfl, rfl, ?_⟩
    rw [sessions_foldl]
    simp [tableFind, List.find?_cons]

/-- Witness for C1: the spec's scenario, a session over children a, b, c
surviving an add of d and a removal of b. -/
theorem readdir_snapshot_isolation_witness :
    (⟨5, dirSnapshot.children, 0⟩ : ReadDirCtx).children =
        (⟨dirSnapshot, []⟩ : World).dir.children ∧
      (⟨5, dirSnapshot.children, 0⟩ : ReadDirCtx).itPos = 0 ∧
      tableFind
        (([MutOp.add "d" 4, MutOp.remove 7 "b"].foldl applyMutW
            ⟨dirSnapshot, [(5, ⟨5, dirSnapshot.children, 0⟩)]⟩).sessions)
        (⟨5, dirSnapshot.children, 0⟩ : ReadDirCtx).cookie =
        some ⟨5, dirSnapshot.children, 0⟩ :=
  readdir_snapshot_isolation [5] ⟨dirSnapshot, []⟩ ⟨5, dirSnapshot.children, 0⟩
    [(5, ⟨5, dirSnapshot.children, 0⟩)] (by decide)
    [MutOp.add "d" 4, MutOp.remove 7 "b"]

/-- C5: a `PrepareReaddir` call with the cookie of an exhausted session
(cursor at the end of its snapshot) erases that session from the table
and signals `NotFound`; a call with a non-zero cookie absent from the
table signals `NotFound` and leaves the table unchanged. -/
theorem prepareReaddir_exhausted_spec (rands : List Nat)
    (children : List (Name × Ino)) (tbl : SessionTable) (cookie : Nat)
    (hc : cookie ≠ 0) :
    (∀ ctx, tableFind tbl cookie = some ctx →
      ctx.children.length ≤ ctx.itPos →
      PrepareReaddir rands children tbl cookie =
        some (.notFound, tableErase tbl cookie) ∧
      tableFind (tableErase tbl cookie) cookie = none) ∧
    (tableFind tbl cookie = none →
      PrepareReaddir rands children tbl cookie = some (.notFound, tbl)) := by
  constructor
  · intro ctx hfind hend
    constructor
    · unfold PrepareReaddir
      rw [if_pos hc, hfind]
      simp [hend]
    · exact tableFind_erase tbl cookie
  · intro hfind
    unfold PrepareReaddir
    rw [if_pos hc, hfind]

/-- Witness for C5: cookie 7 of an exhausted one-entry session is erased
with `NotFound`; cookie 9, absent from an empty table, gets `NotFound`. -/
theorem prepareReaddir_exhausted_spec_witness :
    (PrepareReaddir [] [] exhaustedTbl 7 =
        some (.notFound, tableErase exhaustedTbl 7) ∧
      tableFind (tableErase exhaustedTbl 7) 7 = none) ∧
      PrepareReaddir [] [] [] 9 = some (.notFound, []) :=
  ⟨(prepareReaddir_exhausted_spec [] [] exhaustedTbl 7 (by decide)).1
      ⟨7, [("a", 1)], 1⟩ (by decide) (by decide),
   (prepareReaddir_exhausted_spec [] [] [] 9 (by decide)).2 (by decide)⟩

/-- C4: evaluation at the failing input. `rand()` can return 0 and the
retry loop only guards against collisions with live sessions, so a first
draw of 0 on an empty session table issues and registers cookie 0 — the
value the protocol reserves as the start sentinel — contradicting the
claim that assigned cookies are always non-zero. -/
theorem prepareReaddir_can_issue_zero_cookie :
    PrepareReaddir [0] [("a", 1)] [] 0 =
      some (.session ⟨0, [("a", 1)], 0⟩, [(0, ⟨0, [("a", 1)], 0⟩)]) := by
  decide

/-- C10: evaluation at the failing input. A successful `AddChild` leaves
`st_mtim` and `st_ctim` exactly as they were (111 and 222 here):
`_AddChild` contains no `clock_gettime` call, unlike `_UpdateChild` and
`_RemoveChild`, contradicting the claim that a successful add refreshes
the modify and change timestamps. -/
theorem addChild_no_timestamp_refresh :
    (AddChild ⟨[], 0, 0, 111, 222, 0, 1000⟩ "a" 10).map
        (fun p => (p.1, p.2.st_mtim, p.2.st_ctim)) = some (0, 111, 222) := by
  decide

/-- C8 counterexample: inserting b then a leaves the children sequence
`[b, a]`, which is not sorted by name key — `_AddChild` appends with
`push_back` and never re-sorts. -/
theorem addChild_not_sorted_counterexample :
    ((AddChild ⟨[], 0, 0, 0, 0, 0, 1000⟩ "b" 1).bind
        (fun p => AddChild p.2 "a" 2)).map
        (fun p => (p.2.children, sortedByName p.2.children)) =
      some ([("b", 1), ("a", 2)], false) := by
  decide

/-- C8 as amended: iterating the children yields the entries in insertion
order — a successful `AddChild` appends `(name, ino)` at the end — and
the snapshot copied by `PrepareReaddir` at session start preserves that
sequence as-is. -/
theorem addChild_insertion_order (s : DirState) (name : Name) (ino : Ino)
    (s1 : DirState) (h : AddChild s name ino = some (0, s1))
    (rands : List Nat) (tbl : SessionTable) (ctx : ReadDirCtx)
    (tbl1 : SessionTable)
    (hp : PrepareReaddir rands s1.children tbl 0 = some (.session ctx, tbl1)) :
    s1.children = s.children ++ [(name, ino)] ∧ ctx.children = s1.children := by
  have hchildren : s1.children = s.children ++ [(name, ino)] := by
    unfold AddChild at h
    by_cases h1 : containsName s.children name = true
    · rw [if_pos h1] at h
      simp only [Option.some.injEq, Prod.mk.injEq] at h
      exact absurd h.1.symm (by decide)
    · rw [if_neg h1] at h
      by_cases h2 : CheckHasSpaceFor s.usedBlocks s.quota (elem_size name) = true
      · rw [if_neg (by simp [h2]), updateSize_add] at h
        simp only [Option.map_some', Option.some.injEq, Prod.mk.injEq,
          true_and] at h
        rw [← h]
      · rw [if_pos (by simpa using h2)] at h
        simp only [Option.some.injEq, Prod.mk.injEq] at h
        exact absurd h.1.symm (by decide)
  refine ⟨hchildren, ?_⟩
  unfold PrepareReaddir at hp
  rw [if_neg (by simp)] at hp
  cases hpc : pickCookie rands tbl with
  | none => rw [hpc] at hp; exact absurd hp (by simp)
  | some c =>
    rw [hpc] at hp
    simp only [Option.some.injEq, Prod.mk.injEq,
      ReaddirResult.session.injEq] at hp
    rw [← hp.1]

/-- Witness for C8 as amended: appending b to a one-entry directory and
snapshotting the two-entry result. -/
theorem addChild_insertion_order_witness :
    dirTwoChildren.children = dirOneChild.children ++ [("b", 1)] ∧
      (⟨9, dirTwoChildren.children, 0⟩ : ReadDirCtx).children =
        dirTwoChildren.children :=
  addChild_insertion_order dirOneChild "b" 1 dirTwoChildren (by decide)
    [9] [] ⟨9, dirTwoChildren.children, 0⟩
    [(9, ⟨9, dirTwoChildren.children, 0⟩)] (by decide)

end VeriFS
